import Mathlib

/-!
# Verification of the `tcp_server` line-oriented TCP session library

Shallow embedding of the final snapshot of the repository
(`client.go`, `stringFormat.go`, and the server file) together with
proofs about its observable behaviour.

Conventions of the embedding:

* Go strings are modelled as Lean `String` / `List Char`.  Go's
  `for _, chr := range str` iterates decoded runes, which correspond to
  Lean `Char`s.
* Go maps are modelled as association lists with update-in-place
  insertion; a `nil` map is `Option.none`.
* `float64` counters used as integral ids are modelled as `Nat`
  (exact for every id below `2^53`).
* I/O results (read errors, write/flush errors, the result of
  `conn.Close()`) are supplied as explicit parameters, so every
  stateful operation is a pure function of the session state and the
  injected I/O outcome.
* Callback invocations (`onClientConnectionClosed`, `onNewMessage`)
  are recorded in ghost counters of the state.
-/

namespace TcpServer

/-! ## Line decoder (`stringFormat.go`, `stringFormatWithBS`) -/

/-- One iteration of the loop body of `stringFormatWithBS`:

```go
if chr == 8 {
    if ts != "" && len(ts) > 1 {
        ts = ts[:len(ts)-1]
        continue
    } else if len(ts) == 1 {
        ts = ""
        continue
    }
    continue
}
if chr < 32 || chr > 126 {
    continue
}
ts += string(chr)
```

`ts` holds only single-byte printable ASCII characters, so the byte
slice `ts[:len(ts)-1]` drops exactly the last accumulated character. -/
def sfbsStep (ts : List Char) (chr : Char) : List Char :=
  if chr.toNat = 8 then
    if ts ≠ [] ∧ ts.length > 1 then ts.dropLast
    else if ts.length = 1 then []
    else ts
  else if chr.toNat < 32 ∨ chr.toNat > 126 then ts
  else ts ++ [chr]

/-- `stringFormatWithBS` from `stringFormat.go`: fold the loop body over
the decoded characters of the input, starting from the empty
accumulator (`ts := ""`). -/
def stringFormatWithBS (str : List Char) : List Char :=
  if str = [] then [] else str.foldl sfbsStep []

/-- String-level wrapper of the line decoder. -/
def stringFormatWithBSStr (str : String) : String :=
  String.mk (stringFormatWithBS str.toList)

/-! ## `Send` wire formatting (`client.go`, `Send`) -/

/-- The cutset test of `strings.Trim(message, "\r\n")`. -/
def isTermChar (ch : Char) : Bool := ch == '\r' || ch == '\n'

/-- `strings.Trim(s, "\r\n")`: remove every leading and every trailing
`\r`/`\n` character. -/
def trimRN (cs : List Char) : List Char :=
  ((cs.dropWhile isTermChar).reverse.dropWhile isTermChar).reverse

/-- The bytes `Send` puts on the wire, or `none` when `Send` rejects the
message:

```go
message = strings.Trim(message, "\r\n") + "\r\n"
if message == "\r\n" {
    return false
}
```
-/
def sendWire (s : String) : Option String :=
  let message := String.mk (trimRN s.toList) ++ "\r\n"
  if message = "\r\n" then none else some message

/-! ### Properties of the line decoder -/

/-- Elements of `dropLast` are elements of the list. -/
theorem mem_of_mem_dropLast {α : Type} {l : List α} {a : α}
    (h : a ∈ l.dropLast) : a ∈ l :=
  List.dropLast_subset l h

/-- The loop body keeps every accumulated character printable. -/
theorem sfbsStep_printable {ts : List Char} {chr : Char}
    (h : ∀ c ∈ ts, 32 ≤ c.toNat ∧ c.toNat ≤ 126) :
    ∀ c ∈ sfbsStep ts chr, 32 ≤ c.toNat ∧ c.toNat ≤ 126 := by
  intro c hc
  unfold sfbsStep at hc
  split at hc
  · split at hc
    · exact h c (mem_of_mem_dropLast hc)
    · split at hc
      · simp at hc
      · exact h c hc
  · split at hc
    · exact h c hc
    · rcases List.mem_append.1 hc with hmem | hmem
      · exact h c hmem
      · rename_i hrange _
        simp only [List.mem_singleton] at hmem
        subst hmem
        omega

/-- Folding the loop body keeps every accumulated character printable. -/
theorem foldl_sfbsStep_printable (cs : List Char) (acc : List Char)
    (h : ∀ c ∈ acc, 32 ≤ c.toNat ∧ c.toNat ≤ 126) :
    ∀ c ∈ cs.foldl sfbsStep acc, 32 ≤ c.toNat ∧ c.toNat ≤ 126 := by
  induction cs generalizing acc with
  | nil => exact h
  | cons a cs ih =>
    exact ih (sfbsStep acc a) (sfbsStep_printable h)

/-- The head surviving a `dropWhile` falsifies the predicate. -/
theorem head?_dropWhile_false {α : Type} (p : α → Bool) (l : List α) :
    ∀ a, (l.dropWhile p).head? = some a → p a = false := by
  induction l with
  | nil => intro a h; simp [List.dropWhile] at h
  | cons b l ih =>
    intro a h
    rw [List.dropWhile_cons] at h
    split at h
    · exact ih a h
    · simp only [List.head?_cons, Option.some.injEq] at h
      subst h
      rename_i hpb
      simpa using hpb

/-- The last character left after trimming `\r`/`\n` from both ends is
not itself a terminator character. -/
theorem trimRN_getLast?_not_term (cs : List Char) :
    ∀ ch, (trimRN cs).getLast? = some ch → isTermChar ch = false := by
  intro ch h
  unfold trimRN at h
  rw [List.getLast?_reverse] at h
  exact head?_dropWhile_false isTermChar _ ch h

/-- C3: the line decoder (`stringFormatWithBS`) is a total deterministic
function whose output holds only printable ASCII characters
(0x20–0x7E); a backspace byte (0x08) deletes the previous accumulated
character and is a no-op on an empty accumulator; `"ab\x08c"` decodes
to `"ac"` and `"a\x08\x08\x08"` decodes to `""`. -/
theorem lineDecoder_printable_backspace :
    (∀ str : List Char, ∀ c ∈ stringFormatWithBS str,
        32 ≤ c.toNat ∧ c.toNat ≤ 126)
  ∧ (∀ (ts : List Char) (chr : Char), chr.toNat = 8 →
        sfbsStep ts chr = ts.dropLast)
  ∧ (∀ chr : Char, chr.toNat = 8 → sfbsStep [] chr = [])
  ∧ stringFormatWithBSStr "ab\x08c" = "ac"
  ∧ stringFormatWithBSStr "a\x08\x08\x08" = "" := by
  refine ⟨?_, ?_, ?_, by decide, by decide⟩
  · intro str c hc
    unfold stringFormatWithBS at hc
    split at hc
    · simp at hc
    · exact foldl_sfbsStep_printable str [] (by simp) c hc
  · intro ts chr h8
    unfold sfbsStep
    rw [if_pos h8]
    match ts with
    | [] => simp
    | [a] => simp
    | a :: b :: rest => simp
  · intro chr h8
    unfold sfbsStep
    rw [if_pos h8]
    simp

/-- Witness for C3 at concrete inputs: the decoded character of
`"ab\x08c"` is printable, and a backspace step on `['a', 'b']` drops
`'b'`. -/
theorem lineDecoder_printable_backspace_witness :
    (32 ≤ 'a'.toNat ∧ 'a'.toNat ≤ 126)
  ∧ sfbsStep ['a', 'b'] '\x08' = ['a'] := by
  constructor
  · exact lineDecoder_printable_backspace.1 "ab\x08c".toList 'a' (by decide)
  · have h := lineDecoder_printable_backspace.2.1 ['a', 'b'] '\x08' (by decide)
    simpa using h

/-- C4 counterexample: `Send("  hello  \r\n")` puts
`"  hello  \r\n"` on the wire — the surrounding spaces are kept, so the
claimed wire form `"hello\r\n"` is wrong. -/
theorem send_spaces_not_trimmed :
    sendWire "  hello  \r\n" = some "  hello  \r\n"
  ∧ sendWire "  hello  \r\n" ≠ some "hello\r\n" := by
  constructor
  · decide
  · decide

/-- C4 amended: `Send` trims only `\r` and `\n` (not blanks) from both
ends of its argument, appends exactly one canonical terminator, and
fails (returns `false`, the EmptyMessage outcome) iff the trimmed
content is empty; `Send("")` and `Send("\r\n")` fail while
`Send("  hello  \r\n")` produces `"  hello  \r\n"`. -/
theorem send_trims_terminators_appends_one :
    (∀ s : String, sendWire s = none ↔ trimRN s.toList = [])
  ∧ (∀ (s out : String), sendWire s = some out →
        out.toList = trimRN s.toList ++ ['\r', '\n'])
  ∧ (∀ (s : String) (ch : Char), (trimRN s.toList).getLast? = some ch →
        isTermChar ch = false)
  ∧ sendWire "" = none
  ∧ sendWire "\r\n" = none
  ∧ sendWire "  hello  \r\n" = some "  hello  \r\n" := by
  refine ⟨?_, ?_, ?_, by decide, by decide, by decide⟩
  · intro s
    simp only [sendWire]
    constructor
    · intro h
      split at h
      · rename_i heq
        have hdata := congrArg String.data heq
        rw [String.data_append] at hdata
        simpa using hdata
      · exact absurd h (by simp)
    · intro h
      rw [h]
      rfl
  · intro s out h
    simp only [sendWire] at h
    split at h
    · exact absurd h (by simp)
    · simp only [Option.some.injEq] at h
      have hdata := congrArg String.data h.symm
      rw [String.data_append] at hdata
      simpa [String.toList] using hdata
  · intro s ch h
    exact trimRN_getLast?_not_term s.toList ch h

/-- Witness for C4 amended at concrete inputs. -/
theorem send_trims_terminators_appends_one_witness :
    (sendWire "\r\n\r\n" = none ↔ trimRN "\r\n\r\n".toList = [])
  ∧ "hi\r\n".toList = trimRN "hi\n".toList ++ ['\r', '\n'] := by
  constructor
  · exact send_trims_terminators_appends_one.1 "\r\n\r\n"
  · exact send_trims_terminators_appends_one.2.1 "hi\n" "hi\r\n" (by decide)

/-! ## Prompt menu (`client.go`, `ReadPromptMenu`)

`readprompt` performs the actual I/O; its result is a pair
`(answer, aborted)`.  The loop of `ReadPromptMenu` is modelled as a
function over the list of successive `readprompt` results; an
exhausted list (the loop would block in another `readprompt`) yields
`none`. -/

/-- ASCII lowering of a string; agrees with Go's `strings.ToLower` on
the ASCII inputs compared against `"abort"`. -/
def toLowerStr (s : String) : String :=
  String.mk (s.toList.map Char.toLower)

/-- Value of one decimal digit character. -/
def digitVal (c : Char) : Option Nat :=
  if '0' ≤ c ∧ c ≤ '9' then some (c.toNat - 48) else none

/-- Value of a non-empty all-digit character sequence. -/
def digitsVal (cs : List Char) : Option Nat :=
  if cs = [] then none
  else
    cs.foldl
      (fun acc c =>
        match acc, digitVal c with
        | some n, some d => some (n * 10 + d)
        | _, _ => none)
      (some 0)

/-- `strconv.Atoi`: an optional sign followed by at least one decimal
digit; anything else is an error (`none`).  (Go additionally errors on
64-bit overflow, irrelevant for menu-sized numbers.) -/
def Atoi (s : String) : Option Int :=
  match s.toList with
  | '+' :: rest => (digitsVal rest).map (fun n => (n : Int))
  | '-' :: rest => (digitsVal rest).map (fun n => -(n : Int))
  | cs => (digitsVal cs).map (fun n => (n : Int))

/-- The enumerated listing built by `ReadPromptMenu`: blank entries are
skipped, the remaining ones are labelled with their 1-based position:

```go
for i, string := range menu {
    if string == "" {
        continue
    }
    index := strconv.Itoa(i + 1)
    menuselect = append(menuselect, "["+index+"]: "+string)
}
```
-/
def menuselect (menu : List String) : List String :=
  menu.enum.filterMap
    (fun p =>
      if p.2 = "" then none
      else some ("[" ++ toString (p.1 + 1) ++ "]: " ++ p.2))

/-- The `for` loop of `ReadPromptMenu`, one iteration per `readprompt`
result:

```go
for {
    res = -1
    answer, aborted = c.readprompt(prompthead + prompt + menumsg + abortmsg)
    if !aborted {
        return res, aborted
    }
    if strings.ToLower(answer) == "abort" {
        c.Send("Aborted.")
        break
    }
    if answer == "" {
        prompthead = "An empty value isn't accepted.\r\n"
        continue
    }
    int, err := strconv.Atoi(answer)
    if err != nil || int < rangemin || int > rangemax {
        prompthead = "Invalid selection.\r\n"
        continue
    }
    aborted = false
    res = int - 1
    break
}
return res, aborted
```

Note the abort check is `if !aborted` — an answer read without I/O
failure returns immediately with `res = -1`. -/
def readPromptMenuLoop (rangemin rangemax : Int)
    (outcomes : List (String × Bool)) (_prompthead : String) :
    Option (Int × Bool) :=
  match outcomes with
  | [] => none
  | (answer, aborted) :: rest =>
    if aborted = false then some (-1, aborted)
    else if toLowerStr answer = "abort" then some (-1, aborted)
    else if answer = "" then
      readPromptMenuLoop rangemin rangemax rest
        "An empty value isn't accepted.\r\n"
    else
      match Atoi answer with
      | none =>
        readPromptMenuLoop rangemin rangemax rest "Invalid selection.\r\n"
      | some n =>
        if n < rangemin ∨ n > rangemax then
          readPromptMenuLoop rangemin rangemax rest "Invalid selection.\r\n"
        else some (n - 1, false)

/-- `ReadPromptMenu` from `client.go`: empty menus are rejected with
`(-1, true)`; otherwise the loop runs with `rangemin = 1` and
`rangemax = len(menu)`. -/
def ReadPromptMenu (menu : List String) (outcomes : List (String × Bool)) :
    Option (Int × Bool) :=
  if menu.length = 0 then some (-1, true)
  else readPromptMenuLoop 1 (menu.length : Int) outcomes ""

/-- C5: evaluation of `ReadPromptMenu` as written.  Because the abort
check is inverted (`if !aborted`), every answer delivered without I/O
failure — `"2"`, `"abort"`, `"9"` alike — immediately returns
`(-1, false)`, contradicting the specified `(1, false)` /
`(-1, true)` / re-prompt behaviour; only the empty-menu error case
behaves as specified. -/
theorem readPromptMenu_inverted_abort_eval :
    ReadPromptMenu ["A", "B"] [("2", false)] = some (-1, false)
  ∧ ReadPromptMenu ["A", "B"] [("abort", false)] = some (-1, false)
  ∧ ReadPromptMenu ["A", "B"] [("9", false)] = some (-1, false)
  ∧ ReadPromptMenu [] [("1", false)] = some (-1, true) := by
  refine ⟨by decide, by decide, by decide, by decide⟩

/-- C10: the listing skips blank entries, and the selection range is
`1..len(menu)` so the blank position `2` of `["A", "", "C"]` passes the
range check — but on the normal path (`aborted = false`) the inverted
abort check returns `(-1, false)` before the selection logic runs; the
acceptance of the blank position is observable only on the
`aborted = true` path. -/
theorem menu_blank_positions_eval :
    menuselect ["A", "", "C"] = ["[1]: A", "[3]: C"]
  ∧ ReadPromptMenu ["A", "", "C"] [("2", false)] = some (-1, false)
  ∧ ReadPromptMenu ["A", "", "C"] [("2", true)] = some (1, false)
  ∧ ReadPromptMenu ["A", "", "C"] [("4", true)] = none := by
  refine ⟨by decide, by decide, by decide, by decide⟩

/-! ## Client session state (`client.go`)

The fields of `Client` relevant to lifecycle, the hand-off channel and
the per-session store, with a ghost counter for invocations of the
closed-callback.  `V` is the type of stored data values (Go
`interface` values; `none` results of `DataGet` are Go's `nil`).  The
server registry is threaded through the close path as the list of
registered ids. -/

structure Client (V : Type) where
  id : Nat
  connected : Bool
  authorized : Bool
  pmsgOpen : Bool
  sockOpen : Bool
  db : Option (List (String × V))
  closedCbFired : Nat

/-- Go map lookup on the association-list model. -/
def mapLookup {V : Type} (key : String) : List (String × V) → Option V
  | [] => none
  | (k, v) :: rest => if k = key then some v else mapLookup key rest

/-- Go map assignment `m[key] = value` on the association-list model. -/
def mapInsert {V : Type} (key : String) (value : V) :
    List (String × V) → List (String × V)
  | [] => [(key, value)]
  | (k, v) :: rest =>
    if k = key then (key, value) :: rest
    else (k, v) :: mapInsert key value rest

/-- `DataSet`: allocate the store if it is `nil`, then assign. -/
def Client.DataSet {V : Type} (c : Client V) (key : String) (value : V) :
    Client V :=
  match c.db with
  | none => { c with db := some (mapInsert key value []) }
  | some m => { c with db := some (mapInsert key value m) }

/-- `DataGet`: `nil` (`none`) when the key is absent, including on a
`nil` store. -/
def Client.DataGet {V : Type} (c : Client V) (key : String) : Option V :=
  match c.db with
  | none => none
  | some m => mapLookup key m

/-- `DataClear`: `c.db = nil` — the store is deallocated. -/
def Client.DataClear {V : Type} (c : Client V) : Client V :=
  { c with db := none }

/-- `close` from `client.go`:

```go
if c.connected {
    err = c.conn.Close()
    c.connected = false
    close(c.pmsg)
    if c.authorized {
        c.authorized = false
        s.onClientConnectionClosed(c, err)
    }
    s.remove(c.id)
    c.DataClear()
} else {
    err = errors.New("already disconnected")
}
return err
```

`connCloseErr` is the injected result of `c.conn.Close()`. -/
def Client.close {V : Type} (c : Client V) (reg : List Nat)
    (connCloseErr : Option String) : Client V × List Nat × Option String :=
  if c.connected then
    let c1 : Client V :=
      { c with sockOpen := false, connected := false, pmsgOpen := false }
    let c2 : Client V :=
      if c1.authorized then
        { c1 with authorized := false, closedCbFired := c1.closedCbFired + 1 }
      else c1
    let c3 : Client V := { c2 with db := none }
    (c3, reg.filter (fun i => i != c.id), connCloseErr)
  else
    (c, reg, some "already disconnected")

/-- `readln` from `client.go`: reject when not connected; on a read
error close the session and return the underlying error; otherwise
return the decoded line.  `readResult` is the injected result of
`c.r.ReadString('\n')`. -/
def Client.readln {V : Type} (c : Client V) (reg : List Nat)
    (readResult : Except String String) :
    Client V × List Nat × Except String String :=
  if c.connected = false then (c, reg, Except.error "client not connected")
  else
    match readResult with
    | Except.error e =>
      let r := Client.close c reg none
      (r.1, r.2.1, Except.error e)
    | Except.ok message => (c, reg, Except.ok (stringFormatWithBSStr message))

/-- `Send` from `client.go` with its state effects: an empty trimmed
message returns `false` without touching the connection; otherwise the
wire bytes are written and flushed, a write or flush error triggers
`close`, and `true` is returned in every non-empty case — also after
an I/O error. -/
def Client.Send {V : Type} (c : Client V) (reg : List Nat) (message : String)
    (wErr flushErr : Option String) : Client V × List Nat × Bool :=
  match sendWire message with
  | none => (c, reg, false)
  | some _ =>
    if wErr.isSome || flushErr.isSome then
      let r := Client.close c reg none
      (r.1, r.2.1, true)
    else (c, reg, true)

/-- Helper: a first `close` on a connected session leaves it
disconnected. -/
theorem close_leaves_disconnected {V : Type} (c : Client V) (reg : List Nat)
    (e : Option String) (h : c.connected = true) :
    (Client.close c reg e).1.connected = false := by
  unfold Client.close
  rw [h]
  by_cases ha : c.authorized <;> simp [ha]

/-- Helper: `close` on a disconnected session is the identity with the
AlreadyDisconnected error. -/
theorem close_already_disconnected {V : Type} (c : Client V) (reg : List Nat)
    (e : Option String) (h : c.connected = false) :
    Client.close c reg e = (c, reg, some "already disconnected") := by
  unfold Client.close
  rw [h]
  simp

/-- C2: `close` on an already-disconnected session returns the
AlreadyDisconnected error with the session, its flags, channel, store,
callback counter and the registry unchanged; a first `close` on a
connected session closes the socket, flips `connected`, closes the
hand-off channel, deregisters the id, clears the store, returns the
socket-close result, and a second `close` after it changes nothing. -/
theorem close_idempotent {V : Type} (c : Client V) (reg : List Nat)
    (e e2 : Option String) :
    (c.connected = false →
      Client.close c reg e = (c, reg, some "already disconnected"))
  ∧ (c.connected = true →
      (Client.close c reg e).1.connected = false
      ∧ (Client.close c reg e).1.sockOpen = false
      ∧ (Client.close c reg e).1.pmsgOpen = false
      ∧ (Client.close c reg e).1.db = none
      ∧ (Client.close c reg e).2.1 = reg.filter (fun i => i != c.id)
      ∧ (Client.close c reg e).2.2 = e
      ∧ Client.close (Client.close c reg e).1 (Client.close c reg e).2.1 e2
          = ((Client.close c reg e).1, (Client.close c reg e).2.1,
             some "already disconnected")) := by
  constructor
  · intro h
    unfold Client.close
    rw [h]
    simp
  · intro h
    unfold Client.close
    rw [h]
    by_cases ha : c.authorized <;> simp [ha]

/-- A live authorized demo session used by concrete witnesses. -/
def demoClient : Client Nat :=
  { id := 1, connected := true, authorized := true, pmsgOpen := true,
    sockOpen := true, db := none, closedCbFired := 0 }

/-- A disconnected demo session used by concrete witnesses. -/
def demoClientClosed : Client Nat :=
  { id := 1, connected := false, authorized := false, pmsgOpen := false,
    sockOpen := false, db := none, closedCbFired := 1 }

/-- Witness for C2: both branches at a concrete session. -/
theorem close_idempotent_witness :
    (Client.close demoClientClosed [] none
      = (demoClientClosed, [], some "already disconnected"))
  ∧ (Client.close demoClient [1] none).1.connected = false := by
  constructor
  · exact (close_idempotent demoClientClosed [] none none).1 rfl
  · exact ((close_idempotent demoClient [1] none none).2 rfl).1

/-! ### Data store properties (C9) -/

/-- Looking up the key just assigned yields its value. -/
theorem mapLookup_insert_self {V : Type} (key : String) (value : V)
    (m : List (String × V)) :
    mapLookup key (mapInsert key value m) = some value := by
  induction m with
  | nil => simp [mapInsert, mapLookup]
  | cons kv rest ih =>
    obtain ⟨k, v⟩ := kv
    unfold mapInsert
    by_cases hk : k = key
    · simp [hk, mapLookup]
    · simp only [if_neg hk]
      unfold mapLookup
      rw [if_neg hk]
      exact ih

/-- Assigning one key leaves lookups of other keys unchanged. -/
theorem mapLookup_insert_other {V : Type} {key key2 : String} (value : V)
    (m : List (String × V)) (hne : key2 ≠ key) :
    mapLookup key2 (mapInsert key value m) = mapLookup key2 m := by
  have h2 : ¬ key = key2 := fun h => hne h.symm
  induction m with
  | nil => simp [mapInsert, mapLookup, h2]
  | cons kv rest ih =>
    obtain ⟨k, v⟩ := kv
    by_cases hk : k = key
    · subst hk
      simp [mapInsert, mapLookup, h2]
    · by_cases hk2 : k = key2
      · subst hk2
        simp [mapInsert, mapLookup, hk]
      · simp [mapInsert, mapLookup, hk, hk2, ih]

/-- Operations on the per-session store. -/
inductive DbOp (V : Type) where
  | set (key : String) (value : V)
  | clear

/-- Run a sequence of store operations against a session. -/
def runDb {V : Type} (c : Client V) (ops : List (DbOp V)) : Client V :=
  ops.foldl
    (fun c op =>
      match op with
      | DbOp.set k v => Client.DataSet c k v
      | DbOp.clear => Client.DataClear c)
    c

/-- A key is absent after any operation sequence that never sets it. -/
theorem dataGet_never_set {V : Type} (k : String) :
    ∀ (ops : List (DbOp V)) (c : Client V),
      Client.DataGet c k = none →
      (∀ v, DbOp.set k v ∉ ops) →
      Client.DataGet (runDb c ops) k = none := by
  intro ops
  induction ops with
  | nil => intro c h _; exact h
  | cons op rest ih =>
    intro c h hnot
    have hrest : ∀ v, DbOp.set k v ∉ rest := by
      intro v hv
      exact hnot v (List.mem_cons_of_mem op hv)
    match op with
    | DbOp.clear =>
      exact ih (Client.DataClear c) (by simp [Client.DataGet, Client.DataClear]) hrest
    | DbOp.set k2 v2 =>
      have hne : k ≠ k2 := by
        intro heq
        subst heq
        exact hnot v2 (List.mem_cons_self _ _)
      refine ih (Client.DataSet c k2 v2) ?_ hrest
      unfold Client.DataSet Client.DataGet
      match hdb : c.db with
      | none =>
        simp only []
        rw [mapLookup_insert_other v2 [] hne]
        rfl
      | some m =>
        simp only []
        rw [mapLookup_insert_other v2 m hne]
        have := h
        unfold Client.DataGet at this
        rw [hdb] at this
        exact this

/-- C9: `DataGet` after `DataSet` of the same key returns the stored
value; `DataGet` of a key never set (from a `nil` store), or of any
key after `DataClear`, returns the not-found signal `none` (Go `nil`);
`DataClear` deallocates the store (`db = nil`) and a subsequent
`DataSet` reallocates it. -/
theorem dataStore_get_set_clear {V : Type} (c : Client V)
    (k k2 : String) (v : V) :
    Client.DataGet (Client.DataSet c k v) k = some v
  ∧ Client.DataGet (Client.DataClear c) k2 = none
  ∧ (Client.DataClear c).db = none
  ∧ (Client.DataSet (Client.DataClear c) k v).db = some [(k, v)]
  ∧ (∀ ops : List (DbOp V), c.db = none → (∀ v2, DbOp.set k v2 ∉ ops) →
      Client.DataGet (runDb c ops) k = none) := by
  refine ⟨?_, by simp [Client.DataGet, Client.DataClear], ?_, ?_, ?_⟩
  · unfold Client.DataSet Client.DataGet
    match c.db with
    | none => simp [mapLookup_insert_self]
    | some m => simp [mapLookup_insert_self]
  · rfl
  · rfl
  · intro ops hdb hnot
    refine dataGet_never_set k ops c ?_ hnot
    unfold Client.DataGet
    rw [hdb]

/-- Witness for C9 at a concrete session, key and value. -/
theorem dataStore_get_set_clear_witness :
    Client.DataGet (Client.DataSet demoClient "k" 7) "k" = some 7
  ∧ Client.DataGet (runDb demoClient [DbOp.set "other" 3, DbOp.clear]) "k"
      = none := by
  constructor
  · exact (dataStore_get_set_clear demoClient "k" "x" 7).1
  · exact (dataStore_get_set_clear demoClient "k" "x" 7).2.2.2.2
      [DbOp.set "other" 3, DbOp.clear] rfl (by intro v2 hv; simp at hv)

/-! ### I/O error propagation (C6) -/

/-- C6 counterexample: the caller of `Send` cannot observe a write
failure — `Send` returns `true` both on success and after a write
error (the error only triggers the internal `close`), so the error is
not reported to `Send`'s caller. -/
theorem send_error_not_reported :
    (Client.Send demoClient [1] "hi" (some "connection reset") none).2.2 = true
  ∧ (Client.Send demoClient [1] "hi" none none).2.2 = true
  ∧ (Client.Send demoClient [1] "hi" (some "connection reset") none).1.connected
      = false := by
  refine ⟨by decide, by decide, by decide⟩

/-- C6 amended: an I/O error on the read path closes the session and is
returned to `Readln`'s caller; a write/flush error inside `Send`
closes the session but `Send` still returns `true`, so the failure is
not distinguishable through `Send`'s return value. -/
theorem io_errors_trigger_close {V : Type} (c : Client V) (reg : List Nat)
    (e : String) (msg : String) (wErr flushErr : Option String) :
    (c.connected = true →
      (Client.readln c reg (Except.error e)).2.2 = Except.error e
      ∧ (Client.readln c reg (Except.error e)).1.connected = false)
  ∧ (c.connected = false →
      Client.readln c reg (Except.error e)
        = (c, reg, Except.error "client not connected"))
  ∧ (sendWire msg ≠ none → (wErr.isSome || flushErr.isSome) = true →
      (Client.Send c reg msg wErr flushErr).1.connected = false
      ∧ (Client.Send c reg msg wErr flushErr).2.2 = true) := by
  refine ⟨?_, ?_, ?_⟩
  · intro h
    constructor
    · simp [Client.readln, h]
    · have hclose := close_leaves_disconnected c reg none h
      simp only [Client.readln, h]
      simpa using hclose
  · intro h
    simp [Client.readln, h]
  · intro hmsg herr
    unfold Client.Send
    match hw : sendWire msg with
    | none => exact absurd hw hmsg
    | some out =>
      simp only [herr, if_true]
      constructor
      · by_cases hc : c.connected
        · simpa using close_leaves_disconnected c reg none hc
        · have hc' : c.connected = false := by simpa using hc
          rw [close_already_disconnected c reg none hc']
          exact hc'
      · trivial

/-- Witness for C6 amended at a concrete session. -/
theorem io_errors_trigger_close_witness :
    (Client.readln demoClient [1] (Except.error "EOF")).2.2
      = Except.error "EOF"
  ∧ (Client.Send demoClient [1] "hi" (some "reset") none).1.connected
      = false := by
  constructor
  · exact ((io_errors_trigger_close demoClient [1] "EOF" "hi"
      (some "reset") none).1 rfl).1
  · exact ((io_errors_trigger_close demoClient [1] "EOF" "hi"
      (some "reset") none).2.2 (by decide) (by decide)).1

/-! ## Session lifecycle machine (C1)

The callback discipline of one session, modelled as a transition
system whose steps are the lock-protected regions of `add` (server
file), `listen`, `Stop` and `close` (`client.go`), under arbitrary
interleaving.  `add` registers the client and releases the server lock
before invoking `onNewClient` and spawning `listen()`, and `listen()`
(`client.go:61-65`) sets `authorized = true` unconditionally — there
is no connected check — so a concurrent `close` (e.g. from
`Server.Stop`) may run before the spawned `listen` does.  `closedCb`
and `msgCb` are ghost counters of `onClientConnectionClosed` /
`onNewMessage` invocations, `everAuthorized` records whether
`authorized` was ever set, and `everAuthConn` records whether
`authorized` was ever set while the session was still connected. -/

structure LifeState where
  registered : Bool
  connected : Bool
  authorized : Bool
  listenStarted : Bool
  acceptResult : Option Bool
  closedCb : Nat
  msgCb : Nat
  everAuthorized : Bool
  everAuthConn : Bool

def initLife : LifeState :=
  { registered := false, connected := false, authorized := false,
    listenStarted := false, acceptResult := none, closedCb := 0,
    msgCb := 0, everAuthorized := false, everAuthConn := false }

/-- The lifecycle events of one session:

* `register` — `add` inserts the client and sets `connected = true`
  under the server lock;
* `accept b` — the `onNewClient` callback returns `b`;
* `startListen` — the `listen()` goroutine spawned by `add` after
  admission returned true performs its entry region, setting
  `authorized = true` unconditionally; a concurrent `close` may
  already have disconnected the session;
* `deliverMsg` — the `listen` loop invokes `onNewMessage` with a line
  it read;
* `closeCall` — `close()` (from `Close`, a read error, `Stop`, or the
  refusal branch of `add`);
* `relisten` — `Client.Stop` relaunches `listen()`, which again sets
  `authorized = true` unconditionally; it requires a running message
  callback, hence a previously started listen loop. -/
inductive Ev where
  | register
  | accept (b : Bool)
  | startListen
  | deliverMsg
  | closeCall
  | relisten

def lifeStep (s : LifeState) (e : Ev) : LifeState :=
  match e with
  | Ev.register =>
    if s.registered then s
    else { s with registered := true, connected := true }
  | Ev.accept b =>
    if s.registered = true ∧ s.acceptResult = none then
      { s with acceptResult := some b }
    else s
  | Ev.startListen =>
    if s.acceptResult = some true ∧ s.listenStarted = false then
      { s with listenStarted := true, authorized := true,
               everAuthorized := true,
               everAuthConn := s.everAuthConn || s.connected }
    else s
  | Ev.deliverMsg =>
    if s.listenStarted = true then
      { s with msgCb := s.msgCb + 1 }
    else s
  | Ev.closeCall =>
    if s.connected then
      if s.authorized then
        { s with connected := false, authorized := false,
                 closedCb := s.closedCb + 1 }
      else { s with connected := false }
    else s
  | Ev.relisten =>
    if s.listenStarted then
      { s with authorized := true, everAuthorized := true,
               everAuthConn := s.everAuthConn || s.connected }
    else s

def lifeRun (evs : List Ev) : LifeState :=
  evs.foldl lifeStep initLife

/-- Reachability invariant of the lifecycle machine. -/
def LifeInv (s : LifeState) : Prop :=
  (s.connected = true → s.registered = true)
  ∧ (s.registered = false →
      s.connected = false ∧ s.acceptResult = none
      ∧ s.listenStarted = false ∧ s.everAuthorized = false
      ∧ s.authorized = false ∧ s.closedCb = 0 ∧ s.msgCb = 0
      ∧ s.everAuthConn = false)
  ∧ (s.listenStarted = true → s.acceptResult = some true)
  ∧ (s.listenStarted = true → s.everAuthorized = true)
  ∧ (s.everAuthorized = true → s.listenStarted = true)
  ∧ (s.authorized = true → s.everAuthorized = true)
  ∧ (s.everAuthConn = true → s.connected = true → s.authorized = true)
  ∧ (s.everAuthConn = true → s.connected = false → s.closedCb = 1)
  ∧ (s.everAuthorized = false → s.closedCb = 0)
  ∧ (s.connected = true → s.closedCb = 0)
  ∧ (s.msgCb > 0 → s.listenStarted = true)
  ∧ (s.everAuthConn = true → s.everAuthorized = true)
  ∧ s.closedCb ≤ 1

theorem lifeInv_init : LifeInv initLife := by
  unfold LifeInv initLife
  simp

theorem lifeStep_inv (s : LifeState) (e : Ev) (h : LifeInv s) :
    LifeInv (lifeStep s e) := by
  obtain ⟨h1, h2, h3, h4, h5, h6, h7, h8, h9, h10, h11, h12, h13⟩ := h
  cases e with
  | register =>
    simp only [lifeStep]
    split
    · exact ⟨h1, h2, h3, h4, h5, h6, h7, h8, h9, h10, h11, h12, h13⟩
    · rename_i hreg
      have hprev := h2 (by simpa using hreg)
      unfold LifeInv
      simp_all
  | accept b =>
    simp only [lifeStep]
    split
    · unfold LifeInv
      simp_all
    · exact ⟨h1, h2, h3, h4, h5, h6, h7, h8, h9, h10, h11, h12, h13⟩
  | startListen =>
    simp only [lifeStep]
    split
    · rename_i hcond
      unfold LifeInv
      by_cases hconn : s.connected = true <;> simp_all
    · exact ⟨h1, h2, h3, h4, h5, h6, h7, h8, h9, h10, h11, h12, h13⟩
  | deliverMsg =>
    simp only [lifeStep]
    split
    · rename_i hcond
      unfold LifeInv
      simp_all
    · exact ⟨h1, h2, h3, h4, h5, h6, h7, h8, h9, h10, h11, h12, h13⟩
  | closeCall =>
    simp only [lifeStep]
    split
    · rename_i hconn
      split
      · rename_i hauth
        unfold LifeInv
        simp_all
      · rename_i hauth
        unfold LifeInv
        simp_all
    · exact ⟨h1, h2, h3, h4, h5, h6, h7, h8, h9, h10, h11, h12, h13⟩
  | relisten =>
    simp only [lifeStep]
    split
    · rename_i hls
      unfold LifeInv
      by_cases hconn : s.connected = true <;> simp_all
    · exact ⟨h1, h2, h3, h4, h5, h6, h7, h8, h9, h10, h11, h12, h13⟩

theorem lifeRun_inv (evs : List Ev) : LifeInv (lifeRun evs) := by
  unfold lifeRun
  have h : ∀ (l : List Ev) (s : LifeState), LifeInv s →
      LifeInv (l.foldl lifeStep s) := by
    intro l
    induction l with
    | nil => intro s hs; exact hs
    | cons e rest ih =>
      intro s hs
      exact ih (lifeStep s e) (lifeStep_inv s e hs)
  exact h evs initLife lifeInv_init

/-- Helper: once a registered session is disconnected, no later event
changes the closed-callback counter (the session can never reconnect,
and `close` is a no-op on a disconnected session). -/
theorem closedCb_frozen (rest : List Ev) :
    ∀ s : LifeState, s.registered = true → s.connected = false →
      (rest.foldl lifeStep s).closedCb = s.closedCb := by
  induction rest with
  | nil => intro s _ _; rfl
  | cons e rest ih =>
    intro s hreg hconn
    have hstep : (lifeStep s e).closedCb = s.closedCb
        ∧ (lifeStep s e).registered = true
        ∧ (lifeStep s e).connected = false := by
      cases e with
      | register => simp [lifeStep, hreg, hconn]
      | accept b =>
        simp only [lifeStep]
        split <;> simp_all
      | startListen =>
        simp only [lifeStep]
        split <;> simp_all
      | deliverMsg =>
        simp only [lifeStep]
        split <;> simp_all
      | closeCall => simp [lifeStep, hconn, hreg]
      | relisten =>
        simp only [lifeStep]
        split <;> simp_all
    rw [List.foldl_cons, ih (lifeStep s e) hstep.2.1 hstep.2.2, hstep.1]

/-- C1 counterexample: the close-before-listen interleaving — register,
accept, `close` winning the race, then the spawned `listen()` setting
`authorized = true` on the already-disconnected session.  The session
was admitted and `authorized` became true, yet the closed-callback
never fired (`closedCb = 0` with `connected = false`, and by
`closedCb_frozen` no continuation can ever fire it), refuting
"the closed-callback fires if the session was ever authorized". -/
theorem onClosed_missed_despite_authorized :
    (lifeRun [Ev.register, Ev.accept true, Ev.closeCall,
        Ev.startListen]).authorized = true
  ∧ (lifeRun [Ev.register, Ev.accept true, Ev.closeCall,
        Ev.startListen]).everAuthorized = true
  ∧ (lifeRun [Ev.register, Ev.accept true, Ev.closeCall,
        Ev.startListen]).connected = false
  ∧ (lifeRun [Ev.register, Ev.accept true, Ev.closeCall,
        Ev.startListen]).closedCb = 0
  ∧ (lifeRun [Ev.register, Ev.accept true, Ev.closeCall,
        Ev.startListen]).registered = true := by
  refine ⟨by decide, by decide, by decide, by decide, by decide⟩

/-- C1 amended: the closed-callback fires at most once per session and
only for sessions that were ever authorized; for a session that became
authorized while still connected the converse also holds — once
disconnected, the callback has fired exactly once.  A session whose
admission was refused never receives the message callback and
`authorized` never becomes true.  Once a registered session is
disconnected its closed-callback count is final, so a session
authorized only after `close` (the close-before-listen race) never
receives the callback. -/
theorem onClosed_at_most_once_only_authorized (evs : List Ev) :
    (lifeRun evs).closedCb ≤ 1
  ∧ ((lifeRun evs).closedCb = 1 → (lifeRun evs).everAuthorized = true)
  ∧ ((lifeRun evs).everAuthConn = true →
      (lifeRun evs).connected = true ∨ (lifeRun evs).closedCb = 1)
  ∧ ((lifeRun evs).acceptResult = some false →
      (lifeRun evs).msgCb = 0 ∧ (lifeRun evs).everAuthorized = false
      ∧ (lifeRun evs).authorized = false)
  ∧ (∀ (s : LifeState) (rest : List Ev), s.registered = true →
      s.connected = false →
      (rest.foldl lifeStep s).closedCb = s.closedCb) := by
  obtain ⟨h1, h2, h3, h4, h5, h6, h7, h8, h9, h10, h11, h12, h13⟩ :=
    lifeRun_inv evs
  refine ⟨h13, ?_, ?_, ?_, ?_⟩
  · intro h1eq
    by_contra hne
    have hea' : (lifeRun evs).everAuthorized = false := by simpa using hne
    have := h9 hea'
    omega
  · intro hea
    by_cases hc : (lifeRun evs).connected = true
    · exact Or.inl hc
    · exact Or.inr (h8 hea (by simpa using hc))
  · intro hadm
    have hls : (lifeRun evs).listenStarted = false := by
      by_contra hls
      have hls' : (lifeRun evs).listenStarted = true := by simpa using hls
      rw [h3 hls'] at hadm
      simp at hadm
    refine ⟨?_, ?_, ?_⟩
    · by_contra hmsg
      have hpos : (lifeRun evs).msgCb > 0 := Nat.pos_of_ne_zero hmsg
      exact absurd (h11 hpos) (by simp [hls])
    · by_contra heav
      have hea' : (lifeRun evs).everAuthorized = true := by simpa using heav
      exact absurd (h5 hea') (by simp [hls])
    · by_contra hav
      have ha' : (lifeRun evs).authorized = true := by simpa using hav
      exact absurd (h5 (h6 ha')) (by simp [hls])
  · intro s rest hreg hconn
    exact closedCb_frozen rest s hreg hconn

/-- Witness for C1 amended: along the race-free trace register →
accept(true) → listen → message → close, the session was authorized
while connected and is now disconnected, so the theorem yields
`closedCb = 1`. -/
theorem onClosed_at_most_once_only_authorized_witness :
    (lifeRun [Ev.register, Ev.accept true, Ev.startListen, Ev.deliverMsg,
        Ev.closeCall]).connected = true
  ∨ (lifeRun [Ev.register, Ev.accept true, Ev.startListen, Ev.deliverMsg,
        Ev.closeCall]).closedCb = 1 :=
  (onClosed_at_most_once_only_authorized
    [Ev.register, Ev.accept true, Ev.startListen, Ev.deliverMsg,
     Ev.closeCall]).2.2.1 (by decide)

/-! ## Registry id assignment (C7)

`add` and `remove` from the server file:

```go
func (s *Server) add(c *Client) {
    s.Lock()
    s.clients[s.maxid] = c
    c.id = s.maxid
    s.maxid++
    c.connected = true
    s.Unlock()
    ...
}

func (s *Server) remove(cid float64) {
    s.Lock()
    _, exists := s.clients[cid]
    if exists {
        delete(s.clients, cid)
    }
    s.Unlock()
    ...
}
```

`New` initialises `maxid: 1`.  `clients` is the list of registered ids
(the keys of the Go map) and `assigned` is the ghost list of every id
ever handed out, in registration order. -/

structure RegState where
  clients : List Nat
  maxid : Nat
  assigned : List Nat

def regInit : RegState := { clients := [], maxid := 1, assigned := [] }

inductive RegOp where
  | add
  | remove (cid : Nat)

def regStep (s : RegState) (op : RegOp) : RegState :=
  match op with
  | RegOp.add =>
    { clients := s.clients ++ [s.maxid], maxid := s.maxid + 1,
      assigned := s.assigned ++ [s.maxid] }
  | RegOp.remove cid =>
    { s with clients := s.clients.filter (fun i => i != cid) }

def regRun (ops : List RegOp) : RegState := ops.foldl regStep regInit

theorem regRun_inv (ops : List RegOp) :
    (regRun ops).maxid = 1 + (regRun ops).assigned.length
  ∧ (regRun ops).assigned = List.range' 1 (regRun ops).assigned.length
  ∧ (∀ i ∈ (regRun ops).clients, i ∈ (regRun ops).assigned) := by
  unfold regRun
  have h : ∀ (l : List RegOp) (s : RegState),
      s.maxid = 1 + s.assigned.length →
      s.assigned = List.range' 1 s.assigned.length →
      (∀ i ∈ s.clients, i ∈ s.assigned) →
      (l.foldl regStep s).maxid = 1 + (l.foldl regStep s).assigned.length
      ∧ (l.foldl regStep s).assigned
          = List.range' 1 (l.foldl regStep s).assigned.length
      ∧ (∀ i ∈ (l.foldl regStep s).clients,
          i ∈ (l.foldl regStep s).assigned) := by
    intro l
    induction l with
    | nil => intro s hm ha hc; exact ⟨hm, ha, hc⟩
    | cons op rest ih =>
      intro s hm ha hc
      match op with
      | RegOp.add =>
        refine ih (regStep s RegOp.add) ?_ ?_ ?_
        · simp only [regStep, List.length_append, List.length_cons,
            List.length_nil]
          omega
        · simp only [regStep, List.length_append, List.length_cons,
            List.length_nil]
          rw [List.range'_concat]
          rw [ha] at hm ⊢
          rw [hm]
          simp [Nat.add_comm]
        · intro i hi
          simp only [regStep, List.mem_append, List.mem_singleton] at hi ⊢
          rcases hi with hi | hi
          · exact Or.inl (hc i hi)
          · exact Or.inr hi
      | RegOp.remove cid =>
        refine ih (regStep s (RegOp.remove cid)) hm ha ?_
        intro i hi
        simp only [regStep] at hi
        exact hc i (List.mem_of_mem_filter hi)
  exact h ops regInit rfl rfl (by intro i hi; simp [regInit] at hi)

/-- C7: ids are assigned from a counter starting at 1; the sequence of
assigned ids in registration order is exactly `1, 2, …, n`, hence ids
are pairwise distinct and strictly increasing in registration order;
ids of registered sessions are always among the assigned ones, and
removal never lets an id be reassigned (the counter equals
`1 + number of assignments ever made`, independent of removals). -/
theorem ids_unique_monotonic (ops : List RegOp) :
    (regRun ops).assigned = List.range' 1 (regRun ops).assigned.length
  ∧ (regRun ops).assigned.Pairwise (· < ·)
  ∧ (∀ i ∈ (regRun ops).clients, i ∈ (regRun ops).assigned)
  ∧ (regRun ops).maxid = 1 + (regRun ops).assigned.length := by
  obtain ⟨hm, ha, hc⟩ := regRun_inv ops
  refine ⟨ha, ?_, hc, hm⟩
  rw [ha]
  have := List.pairwise_lt_range' 1 (regRun ops).assigned.length
  simpa using this

/-- Witness for C7: after add, add, remove 1, add, the assigned ids are
`[1, 2, 3]` and the registered id 2 is among them. -/
theorem ids_unique_monotonic_witness :
    (regRun [RegOp.add, RegOp.add, RegOp.remove 1, RegOp.add]).assigned
      = List.range' 1 (regRun [RegOp.add, RegOp.add, RegOp.remove 1,
          RegOp.add]).assigned.length
  ∧ 2 ∈ (regRun [RegOp.add, RegOp.add, RegOp.remove 1, RegOp.add]).assigned :=
  ⟨(ids_unique_monotonic [RegOp.add, RegOp.add, RegOp.remove 1, RegOp.add]).1,
   (ids_unique_monotonic [RegOp.add, RegOp.add, RegOp.remove 1,
      RegOp.add]).2.2.1 2 (by decide)⟩

/-! ## Broadcast family (C8)

`SendAll` / `sendAuthorized` from the server file, over a registry of
sessions with their `authorized` flags.  `Send` on an individual
session returns `false` exactly when the trimmed message is blank
(`sendWire message = none`) — an I/O error still returns `true` — so
per-recipient success depends only on the message. -/

structure SClient where
  id : Nat
  authorized : Bool
deriving DecidableEq

instance : IsTotal SClient (fun a b => a.id ≤ b.id) :=
  ⟨fun a b => Nat.le_total a.id b.id⟩

instance : IsTrans SClient (fun a b => a.id ≤ b.id) :=
  ⟨fun _ _ _ hab hbc => Nat.le_trans hab hbc⟩

/-- `clientsSorted`: snapshot of the registry in ascending-id order
(the Go code collects the map keys, sorts them with `sort.Float64s`,
and indexes the map back). -/
def clientsSorted (reg : List SClient) : List SClient :=
  List.insertionSort (fun a b : SClient => a.id ≤ b.id) reg

/-- The result of `sc.Send(message)` as observed by the broadcast loop. -/
def clientSendOk (message : String) : Bool := (sendWire message).isSome

/-- The counting loop of `SendAll`. -/
def sendLoopCount (clients : List SClient) (message : String)
    (excluded : Option Nat) : Nat :=
  clients.foldl
    (fun count sc =>
      if excluded = some sc.id then count
      else if clientSendOk message then count + 1 else count)
    0

/-- `SendAll` from the server file. -/
def SendAll (reg : List SClient) (message : String) (excluded : Option Nat) :
    Nat × Option String :=
  if message = "" then (0, some "empty string invalid")
  else
    let clients := clientsSorted reg
    if clients.length = 0 then (0, some "no clients available")
    else
      let count := sendLoopCount clients message excluded
      if count = 0 then (0, some "sent to no clients") else (count, none)

/-- The counting loop of `sendAuthorized`: the authorization filter is
checked before the exclusion check. -/
def sendAuthorizedLoopCount (clients : List SClient) (message : String)
    (excluded : Option Nat) (authorized : Bool) : Nat :=
  clients.foldl
    (fun count sc =>
      if sc.authorized != authorized then count
      else if excluded = some sc.id then count
      else if clientSendOk message then count + 1 else count)
    0

/-- `sendAuthorized` from the server file (`SendAllAuthorized` passes
`true`, `SendAllUnauthorized` passes `false`). -/
def sendAuthorized (reg : List SClient) (message : String)
    (excluded : Option Nat) (authorized : Bool) : Nat × Option String :=
  if message = "" then (0, some "empty string invalid")
  else
    let clients := clientsSorted reg
    if clients.length = 0 then (0, some "no clients available")
    else
      let count := sendAuthorizedLoopCount clients message excluded authorized
      if count = 0 then (0, some "sent to no clients") else (count, none)

def SendAllAuthorized (reg : List SClient) (message : String)
    (excluded : Option Nat) : Nat × Option String :=
  sendAuthorized reg message excluded true

def SendAllUnauthorized (reg : List SClient) (message : String)
    (excluded : Option Nat) : Nat × Option String :=
  sendAuthorized reg message excluded false

/-- C8 counterexample: with one registered but unauthorized session,
the filtered snapshot of `SendAllAuthorized` is empty, yet the result
is `SentToNoClients` ("sent to no clients"), not the claimed
`NoClientsAvailable` ("no clients available") — the emptiness check
runs on the unfiltered snapshot. -/
theorem sendAllAuthorized_empty_filter_counterexample :
    SendAllAuthorized [⟨1, false⟩] "hi" none
      = (0, some "sent to no clients")
  ∧ SendAllAuthorized [⟨1, false⟩] "hi" none
      ≠ (0, some "no clients available") := by
  constructor
  · decide
  · decide

/-- The `SendAll` loop counts the non-excluded recipients for which
`Send` reports success. -/
theorem sendLoopCount_eq_filter (message : String) (excluded : Option Nat) :
    ∀ (l : List SClient) (acc : Nat),
      l.foldl
        (fun count sc =>
          if excluded = some sc.id then count
          else if clientSendOk message then count + 1 else count) acc
      = acc + (l.filter (fun sc =>
          decide (¬ excluded = some sc.id) && clientSendOk message)).length := by
  intro l
  induction l with
  | nil => intro acc; simp
  | cons sc rest ih =>
    intro acc
    by_cases he : excluded = some sc.id
    · have hacc : (if excluded = some sc.id then acc
          else if clientSendOk message then acc + 1 else acc) = acc := by
        simp [he]
      have hfilt : (decide (¬ excluded = some sc.id)
          && clientSendOk message) = false := by
        simp [he]
      simp only [List.foldl_cons, List.filter_cons, hacc, hfilt,
        Bool.false_eq_true, if_false]
      exact ih acc
    · by_cases hok : clientSendOk message = true
      · have hacc : (if excluded = some sc.id then acc
            else if clientSendOk message then acc + 1 else acc)
            = acc + 1 := by
          simp [he, hok]
        have hfilt : (decide (¬ excluded = some sc.id)
            && clientSendOk message) = true := by
          simp [he, hok]
        simp only [List.foldl_cons, List.filter_cons, hacc, hfilt,
          if_true, List.length_cons]
        rw [ih (acc + 1)]
        omega
      · have hok' : clientSendOk message = false := by simpa using hok
        have hacc : (if excluded = some sc.id then acc
            else if clientSendOk message then acc + 1 else acc) = acc := by
          simp [he, hok']
        have hfilt : (decide (¬ excluded = some sc.id)
            && clientSendOk message) = false := by
          simp [hok']
        simp only [List.foldl_cons, List.filter_cons, hacc, hfilt,
          Bool.false_eq_true, if_false]
        exact ih acc

/-- The `sendAuthorized` loop counts the recipients matching the
authorization filter, not excluded, for which `Send` reports
success. -/
theorem sendAuthorizedLoopCount_eq_filter (message : String)
    (excluded : Option Nat) (authorized : Bool) :
    ∀ (l : List SClient) (acc : Nat),
      l.foldl
        (fun count sc =>
          if sc.authorized != authorized then count
          else if excluded = some sc.id then count
          else if clientSendOk message then count + 1 else count) acc
      = acc + (l.filter (fun sc =>
          (sc.authorized == authorized) && decide (¬ excluded = some sc.id)
            && clientSendOk message)).length := by
  intro l
  induction l with
  | nil => intro acc; simp
  | cons sc rest ih =>
    intro acc
    by_cases hauth : sc.authorized = authorized
    · by_cases he : excluded = some sc.id
      · have hacc : (if sc.authorized != authorized then acc
            else if excluded = some sc.id then acc
            else if clientSendOk message then acc + 1 else acc) = acc := by
          simp [hauth, he]
        have hfilt : ((sc.authorized == authorized)
            && decide (¬ excluded = some sc.id)
            && clientSendOk message) = false := by
          simp [hauth, he]
        simp only [List.foldl_cons, List.filter_cons, hacc, hfilt,
          Bool.false_eq_true, if_false]
        exact ih acc
      · by_cases hok : clientSendOk message = true
        · have hacc : (if sc.authorized != authorized then acc
              else if excluded = some sc.id then acc
              else if clientSendOk message then acc + 1 else acc)
              = acc + 1 := by
            simp [hauth, he, hok]
          have hfilt : ((sc.authorized == authorized)
              && decide (¬ excluded = some sc.id)
              && clientSendOk message) = true := by
            simp [hauth, he, hok]
          simp only [List.foldl_cons, List.filter_cons, hacc, hfilt,
            if_true, List.length_cons]
          rw [ih (acc + 1)]
          omega
        · have hok' : clientSendOk message = false := by simpa using hok
          have hacc : (if sc.authorized != authorized then acc
              else if excluded = some sc.id then acc
              else if clientSendOk message then acc + 1 else acc)
              = acc := by
            simp [hauth, he, hok']
          have hfilt : ((sc.authorized == authorized)
              && decide (¬ excluded = some sc.id)
              && clientSendOk message) = false := by
            simp [hok']
          simp only [List.foldl_cons, List.filter_cons, hacc, hfilt,
            Bool.false_eq_true, if_false]
          exact ih acc
    · have hacc : (if sc.authorized != authorized then acc
          else if excluded = some sc.id then acc
          else if clientSendOk message then acc + 1 else acc) = acc := by
        simp [hauth]
      have hfilt : ((sc.authorized == authorized)
          && decide (¬ excluded = some sc.id)
          && clientSendOk message) = false := by
        simp [hauth]
      simp only [List.foldl_cons, List.filter_cons, hacc, hfilt,
        Bool.false_eq_true, if_false]
      exact ih acc

/-- C8 amended: each broadcast iterates the ascending-id snapshot of
the registry, filters by authorization where applicable and skips the
excluded session; it returns EmptyMessage for an empty message,
NoClientsAvailable when the unfiltered registry snapshot is empty,
SentToNoClients when the counted successes are zero (including when
the filter leaves no recipient), and otherwise the success count with
no error even if some sends failed. -/
theorem broadcast_return_cases (reg : List SClient) (message : String)
    (excluded : Option Nat) (authorized : Bool) :
    List.Sorted (fun a b : SClient => a.id ≤ b.id) (clientsSorted reg)
  ∧ List.Perm (clientsSorted reg) reg
  ∧ (message = "" →
      SendAll reg message excluded = (0, some "empty string invalid")
      ∧ sendAuthorized reg message excluded authorized
          = (0, some "empty string invalid"))
  ∧ (message ≠ "" → reg = [] →
      SendAll reg message excluded = (0, some "no clients available")
      ∧ sendAuthorized reg message excluded authorized
          = (0, some "no clients available"))
  ∧ (message ≠ "" → reg ≠ [] →
      (sendLoopCount (clientsSorted reg) message excluded = 0 →
        SendAll reg message excluded = (0, some "sent to no clients"))
      ∧ (sendLoopCount (clientsSorted reg) message excluded ≠ 0 →
          SendAll reg message excluded
            = (sendLoopCount (clientsSorted reg) message excluded, none))
      ∧ (sendAuthorizedLoopCount (clientsSorted reg) message excluded
            authorized = 0 →
          sendAuthorized reg message excluded authorized
            = (0, some "sent to no clients"))
      ∧ (sendAuthorizedLoopCount (clientsSorted reg) message excluded
            authorized ≠ 0 →
          sendAuthorized reg message excluded authorized
            = (sendAuthorizedLoopCount (clientsSorted reg) message excluded
                authorized, none)))
  ∧ sendLoopCount (clientsSorted reg) message excluded
      = ((clientsSorted reg).filter (fun sc =>
          decide (¬ excluded = some sc.id) && clientSendOk message)).length
  ∧ sendAuthorizedLoopCount (clientsSorted reg) message excluded authorized
      = ((clientsSorted reg).filter (fun sc =>
          (sc.authorized == authorized) && decide (¬ excluded = some sc.id)
            && clientSendOk message)).length := by
  have hlen : (clientsSorted reg).length = reg.length :=
    (List.perm_insertionSort _ reg).length_eq
  refine ⟨List.sorted_insertionSort _ reg, List.perm_insertionSort _ reg,
    ?_, ?_, ?_, ?_, ?_⟩
  · intro h
    constructor
    · simp [SendAll, h]
    · simp [sendAuthorized, h]
  · intro hne hreg
    subst hreg
    constructor
    · simp [SendAll, hne, clientsSorted]
    · simp [sendAuthorized, hne, clientsSorted]
  · intro hne hreg
    have hlen0 : (clientsSorted reg).length ≠ 0 := by
      rw [hlen]
      simpa using fun h => hreg (List.length_eq_zero.1 h)
    refine ⟨?_, ?_, ?_, ?_⟩
    · intro hcount
      simp [SendAll, hne, hlen0, hcount]
    · intro hcount
      simp [SendAll, hne, hlen0, hcount]
    · intro hcount
      simp [sendAuthorized, hne, hlen0, hcount]
    · intro hcount
      simp [sendAuthorized, hne, hlen0, hcount]
  · have h := sendLoopCount_eq_filter message excluded (clientsSorted reg) 0
    simpa [sendLoopCount] using h
  · have h := sendAuthorizedLoopCount_eq_filter message excluded authorized
      (clientsSorted reg) 0
    simpa [sendAuthorizedLoopCount] using h

/-- Witness for C8 amended: the EmptyMessage and success cases at
concrete registries. -/
theorem broadcast_return_cases_witness :
    SendAll [SClient.mk 1 true] "" none = (0, some "empty string invalid")
  ∧ SendAll [SClient.mk 1 true] "hi" none = (1, none) := by
  constructor
  · exact ((broadcast_return_cases [SClient.mk 1 true] "" none true).2.2.1
      rfl).1
  · exact (((broadcast_return_cases [SClient.mk 1 true] "hi" none
      true).2.2.2.2.1 (by decide) (by decide)).2.1 (by decide))

end TcpServer

